import Mathlib

/-!
Shallow embedding of the time/duration conversion layer of the
`roslibrust` repository (`roslibrust_codegen/src/integral_types.rs`),
together with the `RosMessageType` constants of `Time` and the serde
field handling of the `Time` struct.

Machine integers of the source are modelled as `Int`/`Nat` with explicit
range checks mirroring every `try_from` / `as` cast of the source.
-/

/-- Lower bound of Rust `i32`. -/
def i32Min : Int := -2147483648

/-- Upper bound of Rust `i32`. -/
def i32Max : Int := 2147483647

/-- Lower bound of Rust `i64`. -/
def i64Min : Int := -9223372036854775808

/-- Upper bound of Rust `i64`. -/
def i64Max : Int := 9223372036854775807

/-- The ROS `Time` struct of `integral_types.rs`: two signed 32-bit fields
`secs` and `nsecs`, modelled as unbounded `Int` with the i32 range captured
by `Time.wf`. -/
structure Time where
  secs : Int
  nsecs : Int
deriving DecidableEq

/-- Both fields of a `Time` lie in the `i32` range; every value of the Rust
struct satisfies this by typing. -/
def Time.wf (t : Time) : Prop :=
  i32Min ≤ t.secs ∧ t.secs ≤ i32Max ∧ i32Min ≤ t.nsecs ∧ t.nsecs ≤ i32Max

instance (t : Time) : Decidable (Time.wf t) := by
  unfold Time.wf i32Min i32Max
  exact inferInstance

/-- The ROS `Duration` struct of `integral_types.rs`: signed 32-bit `sec`
and `nsec` fields, modelled as unbounded `Int` with the i32 range captured
by `Duration.wf`. -/
structure Duration where
  sec : Int
  nsec : Int
deriving DecidableEq

/-- Both fields of a `Duration` lie in the `i32` range. -/
def Duration.wf (d : Duration) : Prop :=
  i32Min ≤ d.sec ∧ d.sec ≤ i32Max ∧ i32Min ≤ d.nsec ∧ d.nsec ≤ i32Max

instance (d : Duration) : Decidable (Duration.wf d) := by
  unfold Duration.wf i32Min i32Max
  exact inferInstance

/-- `std::time::SystemTime`, modelled as a count of nanoseconds relative to
`UNIX_EPOCH` (negative values are times before the epoch). -/
structure SystemTime where
  nanosSinceEpoch : Int
deriving DecidableEq

/-- `std::time::Duration`, modelled as its total length in nanoseconds
(the Rust struct is `secs: u64` plus `nanos: u32 < 1e9`, which is exactly a
non-negative total nanosecond count; `Duration::new` normalizes and
`as_secs`/`subsec_nanos` recover quotient and remainder by 1e9). -/
structure StdDuration where
  totalNanos : Nat
deriving DecidableEq

/-- Error cases of `TryFrom<std::time::SystemTime> for Time`
(`integral_types.rs` lines 29-52), one constructor per `bail!` site:
the `duration_since(UNIX_EPOCH)` failure, the seconds `i32::try_from`
failure and the nanoseconds `i32::try_from` failure. -/
inductive TimeConvError where
  | epochError
  | secsOverflow
  | nsecsOverflow
deriving DecidableEq

/-- `TryFrom<std::time::SystemTime> for Time` (`integral_types.rs` lines
29-52): `duration_since(UNIX_EPOCH)` fails for pre-epoch times; the whole
seconds (`as_secs`, a `u64`) and the sub-second nanoseconds
(`subsec_nanos`, a `u32`) are each downcast by `i32::try_from`, which on
an unsigned argument fails exactly when the value exceeds `i32Max`. -/
def Time.tryFromSystemTime (val : SystemTime) : Except TimeConvError Time :=
  if val.nanosSinceEpoch < 0 then .error .epochError
  else
    let delta : Nat := val.nanosSinceEpoch.toNat
    if 2147483647 < delta / 1000000000 then .error .secsOverflow
    else if 2147483647 < delta % 1000000000 then .error .nsecsOverflow
    else .ok ⟨(delta / 1000000000 : Nat), (delta % 1000000000 : Nat)⟩

/-- `TryFrom<Time> for std::time::SystemTime` (`integral_types.rs` lines
55-72): `u64::try_from` of each `i32` field fails exactly when the field is
negative; then `Duration::new(secs, nsecs as u32)` (the `as` cast is a mod
2^32 truncation) is added to `UNIX_EPOCH`. -/
def SystemTime.tryFromTime (val : Time) : Option SystemTime :=
  if val.secs < 0 then none
  else if val.nsecs < 0 then none
  else some ⟨val.secs * 1000000000 + val.nsecs % 4294967296⟩

/-- `TryFrom<std::time::Duration> for Duration` (`integral_types.rs` lines
91-111): `as_secs` (u64) and `subsec_nanos` (u32) are each downcast by
`i32::try_from`, failing exactly when the value exceeds `i32Max`. -/
def Duration.tryFromStdDuration (val : StdDuration) : Option Duration :=
  if 2147483647 < val.totalNanos / 1000000000 then none
  else if 2147483647 < val.totalNanos % 1000000000 then none
  else some ⟨(val.totalNanos / 1000000000 : Nat), (val.totalNanos % 1000000000 : Nat)⟩

/-- `TryFrom<Duration> for std::time::Duration` (`integral_types.rs` lines
115-132): `u64::try_from(val.sec)` and `u32::try_from(val.nsec)` each fail
exactly when the field is negative (an `i32` always fits the upper bounds);
the result is `Duration::new(sec, nsec)`. -/
def StdDuration.tryFromDuration (val : Duration) : Option StdDuration :=
  if val.sec < 0 then none
  else if val.nsec < 0 then none
  else some ⟨(val.sec * 1000000000 + val.nsec).toNat⟩

/-- `chrono::DateTime<chrono::Utc>`, modelled by its `timestamp()` (whole
seconds since the epoch, flooring) and `timestamp_subsec_nanos()` (a `u32`
below two billion; values of at least one billion encode leap seconds). -/
structure DateTimeUtc where
  timestamp : Int
  subsecNanos : Nat
deriving DecidableEq

/-- Smallest `timestamp()` of a `chrono::DateTime<chrono::Utc>`
(`chrono::DateTime::<Utc>::MIN_UTC`, about year -262144). -/
def chronoMinTimestamp : Int := -8334601228800

/-- Largest `timestamp()` of a `chrono::DateTime<chrono::Utc>`
(`chrono::DateTime::<Utc>::MAX_UTC`, about year 262143). -/
def chronoMaxTimestamp : Int := 8210266876799

/-- A `chrono::DateTime<chrono::Utc>` value is within chrono's documented
range and its sub-second nanoseconds are below two billion. -/
def DateTimeUtc.wf (d : DateTimeUtc) : Prop :=
  chronoMinTimestamp ≤ d.timestamp ∧ d.timestamp ≤ chronoMaxTimestamp ∧
    d.subsecNanos < 2000000000

instance (d : DateTimeUtc) : Decidable (DateTimeUtc.wf d) := by
  unfold DateTimeUtc.wf chronoMinTimestamp chronoMaxTimestamp
  exact inferInstance

/-- `chrono::DateTime::from_timestamp(secs, nsecs)`: `None` when `nsecs`
is two billion or more, or when `secs` falls outside chrono's representable
range; otherwise the date-time at `secs` seconds past the epoch carrying
`nsecs` sub-second nanoseconds. -/
def DateTimeUtc.fromTimestamp (secs : Int) (nsecs : Nat) : Option DateTimeUtc :=
  if 2000000000 ≤ nsecs then none
  else if secs < chronoMinTimestamp then none
  else if chronoMaxTimestamp < secs then none
  else some ⟨secs, nsecs⟩

/-- `TryFrom<chrono::DateTime<chrono::Utc>> for Time` (`integral_types.rs`
lines 136-156): `i32::try_from(val.timestamp())` fails exactly when the
`i64` timestamp falls outside the `i32` range;
`i32::try_from(val.timestamp_subsec_nanos())` fails exactly when the `u32`
exceeds `i32Max`. -/
def Time.tryFromDateTime (val : DateTimeUtc) : Option Time :=
  if val.timestamp < -2147483648 ∨ 2147483647 < val.timestamp then none
  else if 2147483647 < (val.subsecNanos : Int) then none
  else some ⟨val.timestamp, val.subsecNanos⟩

/-- `TryFrom<Time> for chrono::DateTime<chrono::Utc>` (`integral_types.rs`
lines 160-179): `i64::try_from(val.secs)` never fails on an `i32`;
`u32::try_from(val.nsecs)` fails exactly when `nsecs` is negative; the
result is `chrono::DateTime::from_timestamp(secs, nsecs)`. -/
def DateTimeUtc.tryFromTime (val : Time) : Option DateTimeUtc :=
  if val.nsecs < 0 then none
  else DateTimeUtc.fromTimestamp val.secs val.nsecs.toNat

/-- `chrono::Duration` (`chrono::TimeDelta`), modelled by its total length
in nanoseconds; chrono bounds it to plus or minus `i64Max` milliseconds. -/
structure ChronoDuration where
  totalNanos : Int
deriving DecidableEq

/-- Magnitude bound of `chrono::Duration` in nanoseconds:
`chrono::Duration::MAX` is `i64Max` milliseconds and `MIN` is its
negation. -/
def chronoDurationMaxNanos : Int := 9223372036854775807 * 1000000

/-- `chrono::Duration::try_seconds(secs)`: `seconds.checked_mul(1000)`
on `i64` followed by `try_milliseconds`, which rejects `i64Min`. -/
def ChronoDuration.trySeconds (secs : Int) : Option ChronoDuration :=
  if secs * 1000 < i64Min ∨ i64Max < secs * 1000 then none
  else if secs * 1000 = i64Min then none
  else some ⟨secs * 1000000000⟩

/-- `chrono::Duration::nanoseconds(n)`: total, infallible for any `i64`. -/
def ChronoDuration.nanoseconds (n : Int) : ChronoDuration := ⟨n⟩

/-- `chrono::Duration::checked_add`: `None` when the sum leaves chrono's
representable range. -/
def ChronoDuration.checkedAdd (a b : ChronoDuration) : Option ChronoDuration :=
  if a.totalNanos + b.totalNanos < -chronoDurationMaxNanos then none
  else if chronoDurationMaxNanos < a.totalNanos + b.totalNanos then none
  else some ⟨a.totalNanos + b.totalNanos⟩

/-- `TryFrom<Duration> for chrono::Duration` (`integral_types.rs` lines
203-221): `try_seconds(i64::from(val.sec))`, then
`nanoseconds(i64::from(val.nsec))`, combined with `checked_add`. -/
def ChronoDuration.tryFromDuration (val : Duration) : Option ChronoDuration :=
  match ChronoDuration.trySeconds val.sec with
  | none => none
  | some secs =>
    ChronoDuration.checkedAdd secs (ChronoDuration.nanoseconds val.nsec)

/-- `RosMessageType::ROS_TYPE_NAME` of the `Time` impl
(`integral_types.rs` lines 74-79). -/
def Time.ROS_TYPE_NAME : String := "builtin_interfaces/Time"

/-- `RosMessageType::MD5SUM` of the `Time` impl (`integral_types.rs`
lines 74-79); the source sets it to the empty string with a
`TODO: ROS2 support` remark. -/
def Time.MD5SUM : String := ""

/-- `RosMessageType::DEFINITION` of the `Time` impl (`integral_types.rs`
lines 74-79); the source sets it to the empty string. -/
def Time.DEFINITION : String := ""

/-- Field-by-field deserialization of `Time` as generated by the serde
derive on the struct (`integral_types.rs` lines 15-26): the `secs` field is
also accepted under its `#[serde(alias = "sec")]`, the `nsecs` field under
`#[serde(alias = "nanosec")]`; a duplicated field is an error, an unknown
field is skipped, and a missing field at the end is an error. Field values
stand for already-parsed `i32` payloads. -/
def Time.deserializeAux : Option Int → Option Int → List (String × Int) → Option Time
  | some s, some n, [] => some ⟨s, n⟩
  | none, _, [] => none
  | some _, none, [] => none
  | s?, n?, (k, v) :: rest =>
    if k = "secs" ∨ k = "sec" then
      match s? with
      | some _ => none
      | none => Time.deserializeAux (some v) n? rest
    else if k = "nsecs" ∨ k = "nanosec" then
      match n? with
      | some _ => none
      | none => Time.deserializeAux s? (some v) rest
    else Time.deserializeAux s? n? rest

/-- Deserialize a `Time` from a list of wire fields (see
`Time.deserializeAux`). -/
def Time.deserialize (fields : List (String × Int)) : Option Time :=
  Time.deserializeAux none none fields

/-- C2: converting a `Time` to `std::time::SystemTime` fails exactly when
`secs` or `nsecs` is negative, and otherwise yields the epoch plus `secs`
seconds plus `nsecs` nanoseconds; `Time{i32Max, i32Max}` converts to
epoch + (2147483647 s, 2147483647 ns), while `Time{i32Min, i32Min}` and
`Time{1, -1}` both fail. -/
theorem time_to_systemtime_spec :
    (∀ t : Time, Time.wf t →
      (SystemTime.tryFromTime t = none ↔ (t.secs < 0 ∨ t.nsecs < 0)) ∧
      (0 ≤ t.secs → 0 ≤ t.nsecs →
        SystemTime.tryFromTime t = some ⟨t.secs * 1000000000 + t.nsecs⟩)) ∧
    SystemTime.tryFromTime ⟨2147483647, 2147483647⟩ =
      some ⟨2147483647 * 1000000000 + 2147483647⟩ ∧
    SystemTime.tryFromTime ⟨-2147483648, -2147483648⟩ = none ∧
    SystemTime.tryFromTime ⟨1, -1⟩ = none := by
  refine ⟨?_, by decide, by decide, by decide⟩
  intro t hwf
  simp only [Time.wf, i32Min, i32Max] at hwf
  constructor
  · simp only [SystemTime.tryFromTime]
    by_cases hs : t.secs < 0
    · simp [hs]
    · by_cases hn : t.nsecs < 0
      · simp [hs, hn]
      · simp [hs, hn]
  · intro hs hn
    have hmod : t.nsecs % 4294967296 = t.nsecs := by omega
    simp only [SystemTime.tryFromTime, not_lt.mpr hs, if_false, not_lt.mpr hn, hmod,
      if_neg (not_lt.mpr hs), if_neg (not_lt.mpr hn)]

/-- Witness for C2: `Time{3, 5}` converts to 3000000005 ns past the
epoch. -/
theorem time_to_systemtime_spec_witness :
    SystemTime.tryFromTime ⟨3, 5⟩ = some ⟨3 * 1000000000 + 5⟩ :=
  (time_to_systemtime_spec.1 ⟨3, 5⟩ (by decide)).2 (by decide) (by decide)

/-- C5: converting a `std::time::SystemTime` to `Time` succeeds exactly
when the time is at or after the epoch and its whole seconds fit in
`i32Max`; the error distinguishes the pre-epoch case from the seconds
overflow, and the sub-second-nanoseconds overflow error is never
produced. -/
theorem systemtime_to_time_spec (t : SystemTime) :
    ((∃ tm, Time.tryFromSystemTime t = .ok tm) ↔
      (0 ≤ t.nanosSinceEpoch ∧
        (t.nanosSinceEpoch.toNat / 1000000000 : Int) ≤ i32Max)) ∧
    (Time.tryFromSystemTime t = .error .epochError ↔ t.nanosSinceEpoch < 0) ∧
    (Time.tryFromSystemTime t = .error .secsOverflow ↔
      (0 ≤ t.nanosSinceEpoch ∧
        i32Max < (t.nanosSinceEpoch.toNat / 1000000000 : Int))) ∧
    Time.tryFromSystemTime t ≠ .error .nsecsOverflow := by
  have hmodlt : t.nanosSinceEpoch.toNat % 1000000000 < 1000000000 :=
    Nat.mod_lt _ (by omega)
  simp only [Time.tryFromSystemTime, i32Max]
  by_cases h0 : t.nanosSinceEpoch < 0
  · simp only [if_pos h0]
    refine ⟨?_, ?_, ?_, ?_⟩ <;> simp <;> omega
  · simp only [if_neg h0]
    by_cases h1 : 2147483647 < t.nanosSinceEpoch.toNat / 1000000000
    · simp only [if_pos h1]
      refine ⟨?_, ?_, ?_, ?_⟩ <;> simp <;> omega
    · have h2 : ¬ 2147483647 < t.nanosSinceEpoch.toNat % 1000000000 := by omega
      simp only [if_neg h1, if_pos, if_neg h2]
      refine ⟨?_, ?_, ?_, ?_⟩ <;> simp <;> omega

/-- C1 counterexample: `Time{0, 1500000000}` has non-negative,
representable fields, yet converting it to `std::time::SystemTime` and
back yields `Time{1, 500000000}`, not the original value: `Duration::new`
normalizes the out-of-range nanoseconds into the seconds. -/
theorem time_systemtime_roundtrip_cex :
    (0 ≤ (1500000000 : Int) ∧ (1500000000 : Int) ≤ i32Max) ∧
    (SystemTime.tryFromTime ⟨0, 1500000000⟩).bind
        (fun h => (Time.tryFromSystemTime h).toOption) = some ⟨1, 500000000⟩ ∧
    Time.mk 1 500000000 ≠ Time.mk 0 1500000000 := by
  refine ⟨by decide, by decide, by decide⟩

/-- C1 (amended): the conversions round-trip exactly on the values where
no normalization can occur: a host time at or after the epoch whose whole
seconds fit in `i32Max` converts to `Time` and back to the original host
time, and a `Time` with `0 ≤ secs ≤ i32Max` and `0 ≤ nsecs < 1000000000`
converts to a host time and back to the original `Time`. -/
theorem time_systemtime_roundtrip :
    (∀ t : SystemTime, 0 ≤ t.nanosSinceEpoch →
      (t.nanosSinceEpoch.toNat / 1000000000 : Int) ≤ i32Max →
      (Time.tryFromSystemTime t).toOption.bind SystemTime.tryFromTime = some t) ∧
    (∀ tm : Time, 0 ≤ tm.secs → tm.secs ≤ i32Max →
      0 ≤ tm.nsecs → tm.nsecs < 1000000000 →
      (SystemTime.tryFromTime tm).bind
        (fun h => (Time.tryFromSystemTime h).toOption) = some tm) := by
  simp only [i32Max]
  constructor
  · intro t h0 hle
    obtain ⟨n⟩ := t
    simp only at h0 hle
    have h1 : ¬ n < 0 := not_lt.mpr h0
    have h2 : ¬ 2147483647 < n.toNat / 1000000000 := by omega
    have h3 : ¬ 2147483647 < n.toNat % 1000000000 := by
      have := Nat.mod_lt n.toNat (show 0 < 1000000000 by omega)
      omega
    simp only [Time.tryFromSystemTime, if_neg h1, if_neg h2, if_neg h3,
      Except.toOption, Option.some_bind, SystemTime.tryFromTime]
    have h4 : ¬ ((n.toNat / 1000000000 : Nat) : Int) < 0 := by omega
    have h5 : ¬ ((n.toNat % 1000000000 : Nat) : Int) < 0 := by omega
    simp only [if_neg h4, if_neg h5, Option.some.injEq, SystemTime.mk.injEq]
    omega
  · intro tm hs hsu hn hnu
    obtain ⟨s, n⟩ := tm
    simp only at hs hsu hn hnu
    have hmod : n % 4294967296 = n := by omega
    simp only [SystemTime.tryFromTime, if_neg (not_lt.mpr hs), if_neg (not_lt.mpr hn),
      hmod, Option.some_bind, Time.tryFromSystemTime]
    have h0 : ¬ s * 1000000000 + n < 0 := by
      have : 0 ≤ s * 1000000000 := by positivity
      omega
    have h1 : ¬ 2147483647 < (s * 1000000000 + n).toNat / 1000000000 := by
      omega
    have h2 : ¬ 2147483647 < (s * 1000000000 + n).toNat % 1000000000 := by
      omega
    simp only [if_neg h0, if_neg h1, if_neg h2, Except.toOption, Option.some.injEq,
      Time.mk.injEq]
    omega

/-- Witness for C1: a host time of 1500000000 ns round-trips through
`Time{1, 500000000}`, and `Time{1, 2}` round-trips through the host
representation. -/
theorem time_systemtime_roundtrip_witness :
    (Time.tryFromSystemTime ⟨1500000000⟩).toOption.bind SystemTime.tryFromTime =
      some ⟨1500000000⟩ ∧
    (SystemTime.tryFromTime ⟨1, 2⟩).bind
      (fun h => (Time.tryFromSystemTime h).toOption) = some ⟨1, 2⟩ :=
  ⟨time_systemtime_roundtrip.1 ⟨1500000000⟩ (by decide) (by decide),
   time_systemtime_roundtrip.2 ⟨1, 2⟩ (by decide) (by decide) (by decide) (by decide)⟩

/-- C3 counterexample: `Duration{-1, -1}` has negative components, yet its
conversion to `chrono::Duration` succeeds (yielding -1000000001 ns), so
the negative components are not rejected in every `Duration`-to-host
conversion the layer provides. -/
theorem duration_negative_chrono_cex :
    (Duration.mk (-1) (-1)).sec < 0 ∧ (Duration.mk (-1) (-1)).nsec < 0 ∧
    ChronoDuration.tryFromDuration ⟨-1, -1⟩ = some ⟨-1000000001⟩ := by
  refine ⟨by decide, by decide, by decide⟩

/-- C3 (amended): the conversion from `Duration` to the std/tokio host
duration type fails exactly when `sec` or `nsec` is negative, and in
particular `Duration{-1, -1}` fails it; the calendar-duration conversion,
by contrast, accepts the same negative components. -/
theorem duration_negative_rejected :
    (∀ d : Duration,
      StdDuration.tryFromDuration d = none ↔ (d.sec < 0 ∨ d.nsec < 0)) ∧
    StdDuration.tryFromDuration ⟨-1, -1⟩ = none ∧
    (ChronoDuration.tryFromDuration ⟨-1, -1⟩).isSome = true := by
  refine ⟨?_, by decide, by decide⟩
  intro d
  simp only [StdDuration.tryFromDuration]
  by_cases hs : d.sec < 0
  · simp [hs]
  · by_cases hn : d.nsec < 0
    · simp [hs, hn]
    · simp [hs, hn]

/-- C4 counterexample: `Time{-1, 0}` has a negative `secs` component, yet
its conversion to `chrono::DateTime<Utc>` succeeds (the second before the
epoch): `i64::try_from` of an `i32` never fails, so negative seconds are
not rejected in the calendar conversion. -/
theorem time_chrono_negative_secs_cex :
    (Time.mk (-1) 0).secs < 0 ∧
    DateTimeUtc.tryFromTime ⟨-1, 0⟩ = some ⟨-1, 0⟩ := by
  refine ⟨by decide, by decide⟩

/-- C4 (amended): the `Time`/calendar conversions reject a negative
`nsecs` component and guard the 64-bit-to-32-bit seconds downcast —
a calendar time whose seconds since the epoch leave the `i32` range fails
conversion to `Time` — but, unlike the host-absolute-time conversions,
negative `secs` values are accepted: a `Time` with any `i32` `secs` and
in-range non-negative `nsecs` converts successfully. -/
theorem time_chrono_conversion_spec :
    (∀ t : Time, t.nsecs < 0 → DateTimeUtc.tryFromTime t = none) ∧
    (∀ t : Time, Time.wf t → 0 ≤ t.nsecs → t.nsecs < 2000000000 →
      DateTimeUtc.tryFromTime t = some ⟨t.secs, t.nsecs.toNat⟩) ∧
    (∀ d : DateTimeUtc, DateTimeUtc.wf d →
      (Time.tryFromDateTime d = none ↔
        (d.timestamp < i32Min ∨ i32Max < d.timestamp))) := by
  refine ⟨?_, ?_, ?_⟩
  · intro t hn
    simp only [DateTimeUtc.tryFromTime, if_pos hn]
  · intro t hwf hn hnu
    simp only [Time.wf, i32Min, i32Max] at hwf
    have h1 : ¬ (2000000000 : Nat) ≤ t.nsecs.toNat := by omega
    have h2 : ¬ t.secs < chronoMinTimestamp := by
      simp only [chronoMinTimestamp]; omega
    have h3 : ¬ chronoMaxTimestamp < t.secs := by
      simp only [chronoMaxTimestamp]; omega
    simp only [DateTimeUtc.tryFromTime, if_neg (not_lt.mpr hn),
      DateTimeUtc.fromTimestamp, if_neg h1, if_neg h2, if_neg h3]
  · intro d hwf
    simp only [DateTimeUtc.wf, chronoMinTimestamp, chronoMaxTimestamp] at hwf
    simp only [Time.tryFromDateTime, i32Min, i32Max]
    by_cases h : d.timestamp < -2147483648 ∨ 2147483647 < d.timestamp
    · simp [h]
    · have h2 : ¬ (2147483647 : Int) < d.subsecNanos := by omega
      simp only [if_neg h, if_neg h2]
      simp only [not_or, not_lt] at h
      constructor
      · intro hc
        exact absurd hc (by simp)
      · intro hc
        omega

/-- Witness for C4: `Time{1, -1}` fails the calendar conversion,
`Time{-1, 5}` succeeds (a pre-epoch calendar time), and a calendar time at
3000000000 s past the epoch, being outside the `i32` range, fails
conversion to `Time`. -/
theorem time_chrono_conversion_spec_witness :
    DateTimeUtc.tryFromTime ⟨1, -1⟩ = none ∧
    DateTimeUtc.tryFromTime ⟨-1, 5⟩ = some ⟨-1, 5⟩ ∧
    (Time.tryFromDateTime ⟨3000000000, 0⟩ = none ↔
      ((3000000000 : Int) < i32Min ∨ i32Max < (3000000000 : Int))) :=
  ⟨time_chrono_conversion_spec.1 ⟨1, -1⟩ (by decide),
   time_chrono_conversion_spec.2.1 ⟨-1, 5⟩ (by decide) (by decide) (by decide),
   time_chrono_conversion_spec.2.2 ⟨3000000000, 0⟩ (by decide)⟩

/-- C10: converting any `Duration` (any `i32` `sec` and `nsec`, negative
ones included) to `chrono::Duration` succeeds, with total value
`sec * 1e9 + nsec` nanoseconds: both error branches of the source are
unreachable because every `i32` seconds value, nanoseconds value, and
their combination fit within chrono's 64-bit range. -/
theorem duration_to_chrono_total (d : Duration) (hwf : Duration.wf d) :
    ChronoDuration.tryFromDuration d = some ⟨d.sec * 1000000000 + d.nsec⟩ := by
  simp only [Duration.wf, i32Min, i32Max] at hwf
  have h1 : ¬ (d.sec * 1000 < i64Min ∨ i64Max < d.sec * 1000) := by
    simp only [i64Min, i64Max]; omega
  have h2 : ¬ d.sec * 1000 = i64Min := by
    simp only [i64Min]; omega
  simp only [ChronoDuration.tryFromDuration, ChronoDuration.trySeconds,
    if_neg h1, if_neg h2, ChronoDuration.nanoseconds, ChronoDuration.checkedAdd]
  have h3 : ¬ d.sec * 1000000000 + d.nsec < -chronoDurationMaxNanos := by
    simp only [chronoDurationMaxNanos]; omega
  have h4 : ¬ chronoDurationMaxNanos < d.sec * 1000000000 + d.nsec := by
    simp only [chronoDurationMaxNanos]; omega
  simp only [if_neg h3, if_neg h4]

/-- Witness for C10: `Duration{-2, 3}` converts to chrono's
-1999999997 ns. -/
theorem duration_to_chrono_total_witness :
    ChronoDuration.tryFromDuration ⟨-2, 3⟩ = some ⟨-2 * 1000000000 + 3⟩ :=
  duration_to_chrono_total ⟨-2, 3⟩ (by decide)

/-- C8: deserializing a `Time` from the ROS2-generation wire field names
`sec` and `nanosec` yields the same `Time` as deserializing the same
numbers under the names `secs` and `nsecs` — namely
`Time{secs := a, nsecs := b}`. -/
theorem time_field_aliases (a b : Int) :
    Time.deserialize [("sec", a), ("nanosec", b)] =
      Time.deserialize [("secs", a), ("nsecs", b)] ∧
    Time.deserialize [("sec", a), ("nanosec", b)] = some ⟨a, b⟩ :=
  ⟨rfl, rfl⟩

/-- C9: the `RosMessageType` impl of `Time` does expose all three
`TypeIdentity` constants, and the type name is the human-readable
`builtin_interfaces/Time`; but the checksum and definition constants are
the empty string (the source marks them `TODO: ROS2 support`), so the
checksum is not a fixed-width hash string and the definition is not a
recursively-expanded field listing. -/
theorem time_type_identity_constants :
    Time.ROS_TYPE_NAME = "builtin_interfaces/Time" ∧
    Time.MD5SUM = "" ∧ Time.MD5SUM.length = 0 ∧
    Time.DEFINITION = "" ∧ Time.DEFINITION.length = 0 :=
  ⟨rfl, rfl, rfl, rfl, rfl⟩
